import Mathlib

/-
Verification of the SPH solver core (src/main.rs): smoothing kernels,
density estimation, and the per-tick integrator loop, modelled over ℝ
(the idealisation of the f32 arithmetic in the source).
-/

noncomputable section

/-- A 3-component vector, modelling cgmath's Vector3<f32> (and Point3, which
differs only nominally: Point3 - Point3 and Point3 + Vector3 are the
componentwise operations used by the source). -/
structure Vec3 where
  x : ℝ
  y : ℝ
  z : ℝ

instance : Add Vec3 := ⟨fun a b => ⟨a.x + b.x, a.y + b.y, a.z + b.z⟩⟩

instance : Sub Vec3 := ⟨fun a b => ⟨a.x - b.x, a.y - b.y, a.z - b.z⟩⟩

instance : SMul ℝ Vec3 := ⟨fun c v => ⟨c * v.x, c * v.y, c * v.z⟩⟩

instance : Zero Vec3 := ⟨⟨0, 0, 0⟩⟩

@[simp] theorem Vec3.add_def (a b : Vec3) : a + b = ⟨a.x + b.x, a.y + b.y, a.z + b.z⟩ := rfl

@[simp] theorem Vec3.sub_def (a b : Vec3) : a - b = ⟨a.x - b.x, a.y - b.y, a.z - b.z⟩ := rfl

@[simp] theorem Vec3.smul_def (c : ℝ) (v : Vec3) : c • v = ⟨c * v.x, c * v.y, c * v.z⟩ := rfl

@[simp] theorem Vec3.zero_def : (0 : Vec3) = ⟨0, 0, 0⟩ := rfl

/-- cgmath magnitude2: the squared Euclidean norm (dot of the vector with itself). -/
def Vec3.magnitude2 (v : Vec3) : ℝ := v.x * v.x + v.y * v.y + v.z * v.z

/-- cgmath magnitude: the Euclidean norm. -/
def Vec3.magnitude (v : Vec3) : ℝ := Real.sqrt (Vec3.magnitude2 v)

theorem Vec3.magnitude2_nonneg (v : Vec3) : 0 ≤ Vec3.magnitude2 v := by
  have hx := mul_self_nonneg v.x
  have hy := mul_self_nonneg v.y
  have hz := mul_self_nonneg v.z
  unfold Vec3.magnitude2
  linarith

/-- SpikyKernel::value from src/main.rs lines 33-42. -/
def SpikyKernel.value (r : Vec3) (h : ℝ) : ℝ :=
  let r_mag := Vec3.magnitude r
  if 0 ≤ r_mag ∧ r_mag ≤ h then
    let c := 15 / (Real.pi * h ^ 6)
    let h_sub_r := h - r_mag
    c * h_sub_r * h_sub_r * h_sub_r
  else
    0

/-- SpikyKernel::gradient_mag from src/main.rs lines 44-53. -/
def SpikyKernel.gradient_mag (r : Vec3) (h : ℝ) : ℝ :=
  let r_mag := Vec3.magnitude r
  if 0 ≤ r_mag ∧ r_mag ≤ h then
    let c := 15 * (-3) / (Real.pi * h ^ 6)
    let h_sub_r := h - r_mag
    c * h_sub_r * h_sub_r
  else
    0

/-- Poly6Kernel::value from src/main.rs lines 59-67. -/
def Poly6Kernel.value (r : Vec3) (h : ℝ) : ℝ :=
  let c := 315 / (64 * Real.pi * h ^ 9)
  let mag2 := Vec3.magnitude2 r
  if mag2 ≤ h * h ∧ 0 < mag2 then
    c * (h * h - mag2) ^ 3
  else
    0

/-- Poly6Kernel::gradient_mag from src/main.rs lines 69-77. -/
def Poly6Kernel.gradient_mag (r : Vec3) (h : ℝ) : ℝ :=
  let c := 315 / (64 * Real.pi * h ^ 9)
  let mag2 := Vec3.magnitude2 r
  if mag2 ≤ h * h ∧ 0 < mag2 then
    c * 3 * (-2) * Real.sqrt mag2 * (h * h - mag2) * (h * h - mag2)
  else
    0

/-- The particle state (struct Simulation, src/main.rs lines 17-22); the Vecs,
always of one common length n in main, are modelled as functions from index. -/
@[ext] structure Simulation where
  masses : ℕ → ℝ
  positions : ℕ → Vec3
  velocities : ℕ → Vec3
  force : ℕ → Vec3

/-- A render record (render::Vertex as filled in src/main.rs lines 117-120). -/
structure Vertex where
  position : List ℝ
  color : List ℝ

/-- The density sum of src/main.rs lines 112-114 for particle i, over the
positions as given. -/
def density (masses : ℕ → ℝ) (positions : ℕ → Vec3) (n : ℕ) (h : ℝ) (i : ℕ) : ℝ :=
  ∑ j ∈ Finset.range n, masses j * Poly6Kernel.value (positions i - positions j) h

/-- One iteration of the per-particle loop body (src/main.rs lines 108-121):
update velocity i, then position i, then compute particle i's density from the
partially-updated positions, then push the render record. -/
def tickBody (dt h : ℝ) (n : ℕ) (acc : Simulation × List Vertex) (i : ℕ) :
    Simulation × List Vertex :=
  let s := acc.1
  let v := s.velocities i + (dt / s.masses i) • s.force i
  let p := s.positions i + dt • v
  let s' : Simulation :=
    { s with velocities := Function.update s.velocities i v,
             positions := Function.update s.positions i p }
  let d := density s'.masses s'.positions n h i
  (s', acc.2 ++ [⟨[p.x, p.y, p.z], [d / 150, 1, d / 150]⟩])

/-- One simulation tick (one iteration of the loop spawned at src/main.rs
line 106): the inner for-loop over all particle indices. -/
def tick (dt h : ℝ) (n : ℕ) (s : Simulation) : Simulation × List Vertex :=
  (List.range n).foldl (tickBody dt h n) (s, [])

/-- The velocity particle j holds after its update in the current tick. -/
def postVelocity (dt : ℝ) (s : Simulation) (j : ℕ) : Vec3 :=
  s.velocities j + (dt / s.masses j) • s.force j

/-- The position particle j holds after its update in the current tick. -/
def postPosition (dt : ℝ) (s : Simulation) (j : ℕ) : Vec3 :=
  s.positions j + dt • postVelocity dt s j

/-- The particle state after the loop has processed particles 0, ..., k-1. -/
def stateAfter (dt : ℝ) (s : Simulation) (k : ℕ) : Simulation :=
  { s with
    velocities := fun j => if j < k then postVelocity dt s j else s.velocities j,
    positions := fun j => if j < k then postPosition dt s j else s.positions j }

/-- The render record the tick emits for particle i: its post-update position,
and a density taken over the interleaved positions (post-update for j ≤ i,
pre-tick for j > i). -/
def vertexAt (dt h : ℝ) (n : ℕ) (s : Simulation) (i : ℕ) : Vertex :=
  let p := postPosition dt s i
  let d := density s.masses (stateAfter dt s (i + 1)).positions n h i
  ⟨[p.x, p.y, p.z], [d / 150, 1, d / 150]⟩

/-- N successive ticks, collecting the snapshot of each tick in order. -/
def runTicks (dt h : ℝ) (n : ℕ) : ℕ → Simulation → Simulation × List (List Vertex)
  | 0, s => (s, [])
  | N + 1, s =>
      let r := tick dt h n s
      let rest := runTicks dt h n N r.1
      (rest.1, r.2 :: rest.2)

/-- Modelled from the spec: the Streaming Handoff's send (std::sync::mpsc and
the consumer in render.rs are outside src/). While the receiving end is alive
a send transfers the whole snapshot at once; once the receiver is gone it
reports a terminal failure and delivers nothing. -/
def sendSnapshot (receiverAlive : Bool) (snapshot : List Vertex) : Except Unit (List Vertex) :=
  if receiverAlive then Except.ok snapshot else Except.error ()

/-- Modelled from the spec: the simulation thread's unbounded loop
(src/main.rs line 106: one tick, then tx.send(verts).unwrap()). The unwrap of
a failed send terminates the thread, so no further tick is produced; alive t
says whether the receiving end still exists at the t-th send, and fuel bounds
the otherwise infinite loop. The returned list holds the delivered snapshots. -/
def simLoop (dt h : ℝ) (n : ℕ) (alive : ℕ → Bool) : ℕ → ℕ → Simulation → List (List Vertex)
  | 0, _, _ => []
  | fuel + 1, t, s =>
      let r := tick dt h n s
      match sendSnapshot (alive t) r.2 with
      | Except.error _ => []
      | Except.ok v => v :: simLoop dt h n alive fuel (t + 1) r.1

/-- The fixed time step of src/main.rs line 103 (delta_time = 0.01). -/
def delta_time : ℝ := 1 / 100

/-- Two particles at the origin and at (2,0,0); the second moves left fast
enough to land at (0.5,0,0) after one dt = 1/100 tick. -/
def cfgMoving : Simulation :=
  ⟨fun _ => 1,
   fun j => if j = 0 then ⟨0, 0, 0⟩ else ⟨2, 0, 0⟩,
   fun j => if j = 0 then ⟨0, 0, 0⟩ else ⟨-150, 0, 0⟩,
   fun _ => ⟨0, 0, 0⟩⟩

/-- The spec's two-particle scenario: masses 1, positions (0,0,0) and
(0.5,0,0), zero velocities and forces. -/
def cfgStatic : Simulation :=
  ⟨fun _ => 1,
   fun j => if j = 0 then ⟨0, 0, 0⟩ else ⟨1 / 2, 0, 0⟩,
   fun _ => ⟨0, 0, 0⟩,
   fun _ => ⟨0, 0, 0⟩⟩

/-- The spec's single-particle scenario: mass 1, position (1,0,0), zero
velocity, force (-0.1,0,0). -/
def cfgSingle : Simulation :=
  ⟨fun _ => 1, fun _ => ⟨1, 0, 0⟩, fun _ => ⟨0, 0, 0⟩, fun _ => ⟨-(1 / 10), 0, 0⟩⟩

theorem stateAfter_zero (dt : ℝ) (s : Simulation) : stateAfter dt s 0 = s := by
  ext j <;> simp [stateAfter]

theorem stateAfter_velocities_self (dt : ℝ) (s : Simulation) (k : ℕ) :
    (stateAfter dt s k).velocities k = s.velocities k := by
  simp [stateAfter]

theorem stateAfter_positions_self (dt : ℝ) (s : Simulation) (k : ℕ) :
    (stateAfter dt s k).positions k = s.positions k := by
  simp [stateAfter]

theorem tickBody_stateAfter (dt h : ℝ) (n : ℕ) (s : Simulation) (k : ℕ) (verts : List Vertex) :
    tickBody dt h n (stateAfter dt s k, verts) k =
      (stateAfter dt s (k + 1), verts ++ [vertexAt dt h n s k]) := by
  have hmass : (stateAfter dt s k).masses = s.masses := rfl
  have hforce : (stateAfter dt s k).force = s.force := rfl
  have hv : (stateAfter dt s k).velocities k + (dt / s.masses k) •
      (stateAfter dt s k).force k = postVelocity dt s k := by
    rw [stateAfter_velocities_self]
    rfl
  have hp : (stateAfter dt s k).positions k + dt • postVelocity dt s k = postPosition dt s k := by
    rw [stateAfter_positions_self]
    rfl
  have hvel2 : Function.update (stateAfter dt s k).velocities k (postVelocity dt s k) =
      (stateAfter dt s (k + 1)).velocities := by
    funext j
    simp only [stateAfter, Function.update_apply]
    rcases eq_or_ne j k with hj | hj
    · subst hj
      simp
    · simp only [hj, if_false]
      split_ifs with h1 h2 h2 <;> first | rfl | omega
  have hpos2 : Function.update (stateAfter dt s k).positions k (postPosition dt s k) =
      (stateAfter dt s (k + 1)).positions := by
    funext j
    simp only [stateAfter, Function.update_apply]
    rcases eq_or_ne j k with hj | hj
    · subst hj
      simp
    · simp only [hj, if_false]
      split_ifs with h1 h2 h2 <;> first | rfl | omega
  simp only [tickBody, hmass, hv, hp, hvel2, hpos2, vertexAt]
  rfl

theorem tick_loop_eq (dt h : ℝ) (n : ℕ) (s : Simulation) :
    ∀ k, (List.range k).foldl (tickBody dt h n) (s, []) =
      (stateAfter dt s k, (List.range k).map (vertexAt dt h n s)) := by
  intro k
  induction k with
  | zero => simp [stateAfter_zero]
  | succ k ih =>
      rw [List.range_succ, List.foldl_append, ih, List.map_append]
      simp only [List.foldl_cons, List.foldl_nil, List.map_cons, List.map_nil]
      rw [tickBody_stateAfter]

theorem tick_eq (dt h : ℝ) (n : ℕ) (s : Simulation) :
    tick dt h n s = (stateAfter dt s n, (List.range n).map (vertexAt dt h n s)) :=
  tick_loop_eq dt h n s n

theorem tick_verts_getD (dt h : ℝ) (n : ℕ) (s : Simulation) (i : ℕ) (hi : i < n) :
    (tick dt h n s).2.getD i ⟨[], []⟩ = vertexAt dt h n s i := by
  rw [tick_eq]
  simp [List.getD, List.getElem?_map, List.getElem?_range, hi]

theorem mag2_zero_vec : Vec3.magnitude2 0 = 0 := by
  simp [Vec3.magnitude2]

theorem mag_zero_vec : Vec3.magnitude 0 = 0 := by
  rw [Vec3.magnitude, mag2_zero_vec, Real.sqrt_zero]

theorem poly6_value_out_of_support (r : Vec3) (h : ℝ)
    (hr : h * h < Vec3.magnitude2 r) : Poly6Kernel.value r h = 0 := by
  have hc : ¬(Vec3.magnitude2 r ≤ h * h ∧ 0 < Vec3.magnitude2 r) :=
    fun hc => absurd hc.1 (not_le.mpr hr)
  simp only [Poly6Kernel.value, hc, if_false]

theorem poly6_grad_out_of_support (r : Vec3) (h : ℝ)
    (hr : h * h < Vec3.magnitude2 r) : Poly6Kernel.gradient_mag r h = 0 := by
  have hc : ¬(Vec3.magnitude2 r ≤ h * h ∧ 0 < Vec3.magnitude2 r) :=
    fun hc => absurd hc.1 (not_le.mpr hr)
  simp only [Poly6Kernel.gradient_mag, hc, if_false]

theorem poly6_value_zero_vec (h : ℝ) : Poly6Kernel.value 0 h = 0 := by
  simp only [Poly6Kernel.value, mag2_zero_vec]
  rw [if_neg]
  intro hc
  exact absurd hc.2 (lt_irrefl 0)

theorem poly6_value_nonneg (r : Vec3) (h : ℝ) (hh : 0 < h) :
    0 ≤ Poly6Kernel.value r h := by
  simp only [Poly6Kernel.value]
  split_ifs with hc
  · have h1 : 0 ≤ h * h - Vec3.magnitude2 r := by linarith [hc.1]
    have h2 : 0 ≤ 315 / (64 * Real.pi * h ^ 9) := by positivity
    exact mul_nonneg h2 (pow_nonneg h1 3)
  · exact le_refl 0

theorem spiky_value_out_of_support (r : Vec3) (h : ℝ)
    (hr : h < Vec3.magnitude r) : SpikyKernel.value r h = 0 := by
  have hc : ¬(0 ≤ Vec3.magnitude r ∧ Vec3.magnitude r ≤ h) :=
    fun hc => absurd hc.2 (not_le.mpr hr)
  simp only [SpikyKernel.value, hc, if_false]

theorem spiky_grad_out_of_support (r : Vec3) (h : ℝ)
    (hr : h < Vec3.magnitude r) : SpikyKernel.gradient_mag r h = 0 := by
  have hc : ¬(0 ≤ Vec3.magnitude r ∧ Vec3.magnitude r ≤ h) :=
    fun hc => absurd hc.2 (not_le.mpr hr)
  simp only [SpikyKernel.gradient_mag, hc, if_false]

theorem spiky_value_zero_vec (h : ℝ) (hh : 0 < h) :
    SpikyKernel.value 0 h = 15 / (Real.pi * h ^ 6) * h ^ 3 := by
  simp only [SpikyKernel.value, mag_zero_vec]
  rw [if_pos ⟨le_refl 0, hh.le⟩]
  ring

theorem spiky_value_at_boundary (r : Vec3) (h : ℝ) (hh : 0 < h)
    (hr : Vec3.magnitude2 r = h * h) : SpikyKernel.value r h = 0 := by
  have hm : Vec3.magnitude r = h := by
    rw [Vec3.magnitude, hr, Real.sqrt_mul_self hh.le]
  simp only [SpikyKernel.value, hm]
  rw [if_pos ⟨hh.le, le_refl h⟩]
  ring

theorem poly6_value_at_boundary (r : Vec3) (h : ℝ) (hh : 0 < h)
    (hr : Vec3.magnitude2 r = h * h) : Poly6Kernel.value r h = 0 := by
  simp only [Poly6Kernel.value, hr]
  rw [if_pos ⟨le_refl _, by positivity⟩]
  ring

theorem poly6_half_eval : Poly6Kernel.value ⟨1 / 2, 0, 0⟩ 1 = 315 / (64 * Real.pi) * (3 / 4) ^ 3 := by
  have hm : Vec3.magnitude2 ⟨1 / 2, 0, 0⟩ = 1 / 4 := by
    simp [Vec3.magnitude2]
    norm_num
  simp only [Poly6Kernel.value, hm]
  rw [if_pos (by norm_num)]
  norm_num

theorem poly6_neg_half_eval :
    Poly6Kernel.value ⟨-(1 / 2), 0, 0⟩ 1 = 315 / (64 * Real.pi) * (3 / 4) ^ 3 := by
  have hm : Vec3.magnitude2 ⟨-(1 / 2), 0, 0⟩ = 1 / 4 := by
    simp [Vec3.magnitude2]
    norm_num
  simp only [Poly6Kernel.value, hm]
  rw [if_pos (by norm_num)]
  norm_num

theorem poly6_half_pos : 0 < 315 / (64 * Real.pi) * (3 / 4) ^ 3 := by
  positivity

/-- The density sum over exactly two particles, written out. -/
theorem density_two (m : ℕ → ℝ) (p : ℕ → Vec3) (h : ℝ) (i : ℕ) :
    density m p 2 h i =
      m 0 * Poly6Kernel.value (p i - p 0) h + m 1 * Poly6Kernel.value (p i - p 1) h := by
  simp [density, Finset.sum_range_succ]

theorem poly6_value_mk_zero (h : ℝ) : Poly6Kernel.value ⟨0, 0, 0⟩ h = 0 := by
  have := poly6_value_zero_vec h
  simpa using this


theorem cfgMoving_post0 : postPosition delta_time cfgMoving 0 = ⟨0, 0, 0⟩ := by
  simp [postPosition, postVelocity, cfgMoving]

theorem cfgMoving_post1 : postPosition delta_time cfgMoving 1 = ⟨1 / 2, 0, 0⟩ := by
  simp [postPosition, postVelocity, cfgMoving, delta_time]
  norm_num

theorem cfgMoving_mid_pos0 : (stateAfter delta_time cfgMoving 1).positions 0 = ⟨0, 0, 0⟩ := by
  simp only [stateAfter]
  rw [if_pos (by norm_num : (0 : ℕ) < 1)]
  exact cfgMoving_post0

theorem cfgMoving_mid_pos1 : (stateAfter delta_time cfgMoving 1).positions 1 = ⟨2, 0, 0⟩ := by
  simp only [stateAfter]
  rw [if_neg (by norm_num : ¬(1 : ℕ) < 1)]
  simp [cfgMoving]

/-- The density the code computes for particle 0 of cfgMoving: particle 1 is
still at its pre-tick position (2,0,0), out of support, so the sum is 0. -/
theorem cfgMoving_density0 :
    density cfgMoving.masses (stateAfter delta_time cfgMoving 1).positions 2 1 0 = 0 := by
  rw [density_two, cfgMoving_mid_pos0, cfgMoving_mid_pos1]
  have h1 : Poly6Kernel.value ((⟨0, 0, 0⟩ : Vec3) - ⟨0, 0, 0⟩) 1 = 0 := by
    have e : ((⟨0, 0, 0⟩ : Vec3) - ⟨0, 0, 0⟩) = ⟨0, 0, 0⟩ := by
      simp
    rw [e, poly6_value_mk_zero]
  have h2 : Poly6Kernel.value ((⟨0, 0, 0⟩ : Vec3) - ⟨2, 0, 0⟩) 1 = 0 := by
    apply poly6_value_out_of_support
    simp [Vec3.magnitude2]
    norm_num
  rw [h1, h2]
  simp

/-- The density claim C1 predicts for particle 0 of cfgMoving, taken over the
fully post-integration positions: particle 1 has arrived at (0.5,0,0), inside
support, so the sum is nonzero. -/
theorem cfgMoving_final_density0 :
    density cfgMoving.masses (tick delta_time 1 2 cfgMoving).1.positions 2 1 0 =
      315 / (64 * Real.pi) * (3 / 4) ^ 3 := by
  have hfin : (tick delta_time 1 2 cfgMoving).1 = stateAfter delta_time cfgMoving 2 := by
    rw [tick_eq]
  rw [hfin]
  have e0 : (stateAfter delta_time cfgMoving 2).positions 0 = ⟨0, 0, 0⟩ := by
    simp only [stateAfter]
    rw [if_pos (by norm_num : (0 : ℕ) < 2)]
    exact cfgMoving_post0
  have e1 : (stateAfter delta_time cfgMoving 2).positions 1 = ⟨1 / 2, 0, 0⟩ := by
    simp only [stateAfter]
    rw [if_pos (by norm_num : (1 : ℕ) < 2)]
    exact cfgMoving_post1
  rw [density_two, e0, e1]
  have h1 : Poly6Kernel.value ((⟨0, 0, 0⟩ : Vec3) - ⟨0, 0, 0⟩) 1 = 0 := by
    have e : ((⟨0, 0, 0⟩ : Vec3) - ⟨0, 0, 0⟩) = ⟨0, 0, 0⟩ := by
      simp
    rw [e, poly6_value_mk_zero]
  have h2 : Poly6Kernel.value ((⟨0, 0, 0⟩ : Vec3) - ⟨1 / 2, 0, 0⟩) 1 =
      315 / (64 * Real.pi) * (3 / 4) ^ 3 := by
    have e : ((⟨0, 0, 0⟩ : Vec3) - ⟨1 / 2, 0, 0⟩) = ⟨-(1 / 2), 0, 0⟩ := by
      simp
    rw [e, poly6_neg_half_eval]
  rw [h1, h2]
  simp [cfgMoving]

theorem cfgMoving_vertex0 :
    (tick delta_time 1 2 cfgMoving).2.getD 0 ⟨[], []⟩ = ⟨[0, 0, 0], [0, 1, 0]⟩ := by
  rw [tick_verts_getD _ _ _ _ 0 (by norm_num)]
  simp only [vertexAt, Nat.zero_add]
  rw [cfgMoving_density0, cfgMoving_post0]
  norm_num

theorem cfgStatic_post0 : postPosition delta_time cfgStatic 0 = ⟨0, 0, 0⟩ := by
  simp [postPosition, postVelocity, cfgStatic]

theorem cfgStatic_post1 : postPosition delta_time cfgStatic 1 = ⟨1 / 2, 0, 0⟩ := by
  simp [postPosition, postVelocity, cfgStatic]

theorem cfgStatic_state_pos0 (k : ℕ) :
    (stateAfter delta_time cfgStatic k).positions 0 = ⟨0, 0, 0⟩ := by
  simp only [stateAfter]
  split_ifs
  · exact cfgStatic_post0
  · simp [cfgStatic]

theorem cfgStatic_state_pos1 (k : ℕ) :
    (stateAfter delta_time cfgStatic k).positions 1 = ⟨1 / 2, 0, 0⟩ := by
  simp only [stateAfter]
  split_ifs
  · exact cfgStatic_post1
  · simp [cfgStatic]

theorem cfgStatic_density0 :
    density cfgStatic.masses (stateAfter delta_time cfgStatic 1).positions 2 1 0 =
      315 / (64 * Real.pi) * (3 / 4) ^ 3 := by
  rw [density_two, cfgStatic_state_pos0, cfgStatic_state_pos1]
  have h1 : Poly6Kernel.value ((⟨0, 0, 0⟩ : Vec3) - ⟨0, 0, 0⟩) 1 = 0 := by
    have e : ((⟨0, 0, 0⟩ : Vec3) - ⟨0, 0, 0⟩) = ⟨0, 0, 0⟩ := by
      simp
    rw [e, poly6_value_mk_zero]
  have h2 : Poly6Kernel.value ((⟨0, 0, 0⟩ : Vec3) - ⟨1 / 2, 0, 0⟩) 1 =
      315 / (64 * Real.pi) * (3 / 4) ^ 3 := by
    have e : ((⟨0, 0, 0⟩ : Vec3) - ⟨1 / 2, 0, 0⟩) = ⟨-(1 / 2), 0, 0⟩ := by
      simp
    rw [e, poly6_neg_half_eval]
  rw [h1, h2]
  simp [cfgStatic]

theorem cfgStatic_density1 :
    density cfgStatic.masses (stateAfter delta_time cfgStatic 2).positions 2 1 1 =
      315 / (64 * Real.pi) * (3 / 4) ^ 3 := by
  rw [density_two, cfgStatic_state_pos0, cfgStatic_state_pos1]
  have h1 : Poly6Kernel.value ((⟨1 / 2, 0, 0⟩ : Vec3) - ⟨0, 0, 0⟩) 1 =
      315 / (64 * Real.pi) * (3 / 4) ^ 3 := by
    have e : ((⟨1 / 2, 0, 0⟩ : Vec3) - ⟨0, 0, 0⟩) = ⟨1 / 2, 0, 0⟩ := by
      simp
    rw [e, poly6_half_eval]
  have h2 : Poly6Kernel.value ((⟨1 / 2, 0, 0⟩ : Vec3) - ⟨1 / 2, 0, 0⟩) 1 = 0 := by
    have e : ((⟨1 / 2, 0, 0⟩ : Vec3) - ⟨1 / 2, 0, 0⟩) = ⟨0, 0, 0⟩ := by
      simp
    rw [e, poly6_value_mk_zero]
  rw [h1, h2]
  simp [cfgStatic]

theorem cfgStatic_vertex0 :
    (tick delta_time 1 2 cfgStatic).2.getD 0 ⟨[], []⟩ =
      ⟨[0, 0, 0],
       [315 / (64 * Real.pi) * (3 / 4) ^ 3 / 150, 1,
        315 / (64 * Real.pi) * (3 / 4) ^ 3 / 150]⟩ := by
  rw [tick_verts_getD _ _ _ _ 0 (by norm_num)]
  simp only [vertexAt, Nat.zero_add]
  rw [cfgStatic_density0, cfgStatic_post0]

theorem cfgStatic_vertex1 :
    (tick delta_time 1 2 cfgStatic).2.getD 1 ⟨[], []⟩ =
      ⟨[1 / 2, 0, 0],
       [315 / (64 * Real.pi) * (3 / 4) ^ 3 / 150, 1,
        315 / (64 * Real.pi) * (3 / 4) ^ 3 / 150]⟩ := by
  rw [tick_verts_getD _ _ _ _ 1 (by norm_num)]
  simp only [vertexAt]
  rw [show (1 + 1 : ℕ) = 2 from rfl, cfgStatic_density1, cfgStatic_post1]


/-- C1 (amended): each tick, the render record for particle i carries its
post-integration position, and a density equal to the sum over all particles j
(including j = i) of mass[j] * Poly6.value(position[i] - position[j], h) — but
the positions entering this sum are the positions current when particle i is
processed: already advanced for j ≤ i, still the pre-tick ones for j > i. -/
theorem C1_density_interleaved (dt h : ℝ) (n : ℕ) (s : Simulation) (i : ℕ) (hi : i < n) :
    (tick dt h n s).2.getD i ⟨[], []⟩ =
      ⟨[(postPosition dt s i).x, (postPosition dt s i).y, (postPosition dt s i).z],
       [density s.masses
          (fun j => if j ≤ i then postPosition dt s j else s.positions j) n h i / 150,
        1,
        density s.masses
          (fun j => if j ≤ i then postPosition dt s j else s.positions j) n h i / 150]⟩ := by
  rw [tick_verts_getD dt h n s i hi]
  have hpos : (stateAfter dt s (i + 1)).positions =
      fun j => if j ≤ i then postPosition dt s j else s.positions j := by
    funext j
    simp only [stateAfter, Nat.lt_succ_iff]
  simp only [vertexAt, hpos]

/-- C1 witness: the amended statement instantiated at the concrete two-particle
configuration cfgMoving with dt = 1/100, h = 1. -/
theorem C1_witness :
    (0 : ℕ) < 2 ∧
    (tick delta_time 1 2 cfgMoving).2.getD 0 ⟨[], []⟩ =
      ⟨[(postPosition delta_time cfgMoving 0).x, (postPosition delta_time cfgMoving 0).y,
        (postPosition delta_time cfgMoving 0).z],
       [density cfgMoving.masses
          (fun j => if j ≤ 0 then postPosition delta_time cfgMoving j
                    else cfgMoving.positions j) 2 1 0 / 150,
        1,
        density cfgMoving.masses
          (fun j => if j ≤ 0 then postPosition delta_time cfgMoving j
                    else cfgMoving.positions j) 2 1 0 / 150]⟩ :=
  ⟨by norm_num, C1_density_interleaved delta_time 1 2 cfgMoving 0 (by norm_num)⟩

/-- C1 counterexample: for cfgMoving, the emitted record of particle 0
carries density 0 (particle 1 is still at its pre-tick position, out of
support), while the density over the post-integration positions — what the
claim says should be emitted — is nonzero. -/
theorem C1_counterexample :
    ((tick delta_time 1 2 cfgMoving).2.getD 0 ⟨[], []⟩).color ≠
      [density cfgMoving.masses (tick delta_time 1 2 cfgMoving).1.positions 2 1 0 / 150, 1,
       density cfgMoving.masses (tick delta_time 1 2 cfgMoving).1.positions 2 1 0 / 150] := by
  rw [cfgMoving_vertex0, cfgMoving_final_density0]
  intro hEq
  have h0 : (0 : ℝ) = 315 / (64 * Real.pi) * (3 / 4) ^ 3 / 150 := by
    have := List.head_eq_of_cons_eq hEq
    exact this
  have hpos : (0 : ℝ) < 315 / (64 * Real.pi) * (3 / 4) ^ 3 / 150 := by
    positivity
  linarith [h0, hpos]

/-- C2 counterexample: in the spec's two-particle scenario the emitted density
of particle 0 is Poly6.value((0.5,0,0),1), not the claimed doubled value
2 * Poly6.value((0.5,0,0),1): each particle's sum has exactly one cross term. -/
theorem C2_counterexample :
    ((tick delta_time 1 2 cfgStatic).2.getD 0 ⟨[], []⟩).color.getD 0 0 ≠
      2 * Poly6Kernel.value ⟨1 / 2, 0, 0⟩ 1 / 150 := by
  rw [cfgStatic_vertex0, poly6_half_eval]
  show 315 / (64 * Real.pi) * (3 / 4) ^ 3 / 150 ≠
    2 * (315 / (64 * Real.pi) * (3 / 4) ^ 3) / 150
  have hpos : (0 : ℝ) < 315 / (64 * Real.pi) * (3 / 4) ^ 3 := poly6_half_pos
  intro hEq
  linarith [hEq, hpos]

/-- C2 (amended): in the two-particle scenario (masses 1, positions (0,0,0)
and (0.5,0,0), zero velocities and forces, h = 1, dt = 1/100), one tick leaves
both positions unchanged and emits density[0] = density[1] =
Poly6.value((0.5,0,0), 1) — the single cross term, with the self term 0. -/
theorem C2_static_scenario :
    (tick delta_time 1 2 cfgStatic).1.positions 0 = cfgStatic.positions 0 ∧
    (tick delta_time 1 2 cfgStatic).1.positions 1 = cfgStatic.positions 1 ∧
    ((tick delta_time 1 2 cfgStatic).2.getD 0 ⟨[], []⟩).color.getD 0 0 =
      Poly6Kernel.value ⟨1 / 2, 0, 0⟩ 1 / 150 ∧
    ((tick delta_time 1 2 cfgStatic).2.getD 1 ⟨[], []⟩).color.getD 0 0 =
      Poly6Kernel.value ⟨1 / 2, 0, 0⟩ 1 / 150 := by
  have hfin : (tick delta_time 1 2 cfgStatic).1 = stateAfter delta_time cfgStatic 2 := by
    rw [tick_eq]
  refine ⟨?_, ?_, ?_, ?_⟩
  · rw [hfin, cfgStatic_state_pos0]
    simp [cfgStatic]
  · rw [hfin, cfgStatic_state_pos1]
    simp [cfgStatic]
  · rw [cfgStatic_vertex0, poly6_half_eval]
    simp [List.getD]
  · rw [cfgStatic_vertex1, poly6_half_eval]
    simp [List.getD]

/-- C3: outside the support radius (|r| > h, h > 0) both kernels and both of
their gradient magnitudes vanish. -/
theorem C3_compact_support (r : Vec3) (h : ℝ) (hh : 0 < h) (hr : h < Vec3.magnitude r) :
    SpikyKernel.value r h = 0 ∧ SpikyKernel.gradient_mag r h = 0 ∧
    Poly6Kernel.value r h = 0 ∧ Poly6Kernel.gradient_mag r h = 0 := by
  have h2 : h * h < Vec3.magnitude2 r := by
    rw [Vec3.magnitude] at hr
    have h3 := (Real.lt_sqrt hh.le).mp hr
    nlinarith [h3]
  exact ⟨spiky_value_out_of_support r h hr,
         spiky_grad_out_of_support r h hr,
         poly6_value_out_of_support r h h2,
         poly6_grad_out_of_support r h h2⟩

/-- C3 witness: r = (2,0,0), h = 1. -/
theorem C3_witness :
    (0 : ℝ) < 1 ∧ (1 : ℝ) < Vec3.magnitude ⟨2, 0, 0⟩ ∧
    (SpikyKernel.value ⟨2, 0, 0⟩ 1 = 0 ∧ SpikyKernel.gradient_mag ⟨2, 0, 0⟩ 1 = 0 ∧
     Poly6Kernel.value ⟨2, 0, 0⟩ 1 = 0 ∧ Poly6Kernel.gradient_mag ⟨2, 0, 0⟩ 1 = 0) := by
  have hm : Vec3.magnitude ⟨2, 0, 0⟩ = 2 := by
    rw [Vec3.magnitude]
    have e : Vec3.magnitude2 ⟨2, 0, 0⟩ = 2 * 2 := by
      simp [Vec3.magnitude2]
    rw [e, Real.sqrt_mul_self (by norm_num)]
  have h1 : (1 : ℝ) < Vec3.magnitude ⟨2, 0, 0⟩ := by
    rw [hm]
    norm_num
  exact ⟨by norm_num, h1, C3_compact_support ⟨2, 0, 0⟩ 1 (by norm_num) h1⟩

/-- C4: for h > 0 both kernels are total at the degenerate inputs: at r = 0
Poly6 returns exactly 0 (the documented discontinuity) while Spiky returns the
finite in-branch value, and at |r| = h (|r|² = h², inclusive boundary, branch
taken) both values are the in-branch formulas, which equal 0. -/
theorem C4_boundary_and_origin (r : Vec3) (h : ℝ) (hh : 0 < h)
    (hr : Vec3.magnitude2 r = h * h) :
    Poly6Kernel.value 0 h = 0 ∧
    SpikyKernel.value 0 h = 15 / (Real.pi * h ^ 6) * h ^ 3 ∧
    SpikyKernel.value r h = 0 ∧ Poly6Kernel.value r h = 0 :=
  ⟨poly6_value_zero_vec h, spiky_value_zero_vec h hh,
   spiky_value_at_boundary r h hh hr, poly6_value_at_boundary r h hh hr⟩

/-- C4 witness: h = 1, r = (1,0,0). -/
theorem C4_witness :
    (0 : ℝ) < 1 ∧ Vec3.magnitude2 ⟨1, 0, 0⟩ = 1 * 1 ∧
    (Poly6Kernel.value 0 1 = 0 ∧
     SpikyKernel.value 0 1 = 15 / (Real.pi * 1 ^ 6) * 1 ^ 3 ∧
     SpikyKernel.value ⟨1, 0, 0⟩ 1 = 0 ∧ Poly6Kernel.value ⟨1, 0, 0⟩ 1 = 0) := by
  have hm : Vec3.magnitude2 ⟨1, 0, 0⟩ = 1 * 1 := by
    simp [Vec3.magnitude2]
  exact ⟨by norm_num, hm, C4_boundary_and_origin ⟨1, 0, 0⟩ 1 (by norm_num) hm⟩

/-- C5: each tick the integrator sets velocity[i] to
velocity[i] + (dt / mass[i]) * force[i] (the stored force, never recomputed)
and then position[i] to position[i] + dt * (the just-updated velocity). -/
theorem C5_integrator_order (dt h : ℝ) (n : ℕ) (s : Simulation) (i : ℕ) (hi : i < n) :
    (tick dt h n s).1.velocities i = s.velocities i + (dt / s.masses i) • s.force i ∧
    (tick dt h n s).1.positions i = s.positions i + dt • ((tick dt h n s).1.velocities i) := by
  rw [tick_eq]
  constructor
  · simp [stateAfter, hi, postVelocity]
  · simp [stateAfter, hi, postPosition]

/-- C5 witness: the single-particle scenario — mass 1, position (1,0,0), zero
velocity, force (-0.1,0,0), dt = 1/100 — lands at velocity (-0.001,0,0) and
position (0.99999,0,0) after one tick. -/
theorem C5_witness :
    (0 : ℕ) < 1 ∧
    (tick delta_time 1 1 cfgSingle).1.velocities 0 = ⟨-(1 / 1000), 0, 0⟩ ∧
    (tick delta_time 1 1 cfgSingle).1.positions 0 = ⟨99999 / 100000, 0, 0⟩ := by
  have h := C5_integrator_order delta_time 1 1 cfgSingle 0 (by norm_num)
  have hv : (tick delta_time 1 1 cfgSingle).1.velocities 0 = ⟨-(1 / 1000), 0, 0⟩ := by
    rw [h.1]
    simp [cfgSingle, delta_time]
    norm_num
  refine ⟨by norm_num, hv, ?_⟩
  rw [h.2, hv]
  simp [cfgSingle, delta_time]
  norm_num

/-- C6: a tick never changes any mass or any force (so the total mass over the
n particles is conserved, and forces are never recomputed). -/
theorem C6_tick_preserves_masses_forces (dt h : ℝ) (n : ℕ) (s : Simulation) :
    (tick dt h n s).1.masses = s.masses ∧
    (tick dt h n s).1.force = s.force ∧
    ∑ i ∈ Finset.range n, (tick dt h n s).1.masses i = ∑ i ∈ Finset.range n, s.masses i := by
  rw [tick_eq]
  exact ⟨rfl, rfl, rfl⟩

/-- C7: with every mass positive and h > 0, the density sum is nonnegative for
every particle index, over any positions. -/
theorem C7_density_nonneg (masses : ℕ → ℝ) (positions : ℕ → Vec3) (n : ℕ) (h : ℝ) (i : ℕ)
    (hm : ∀ j, 0 < masses j) (hh : 0 < h) :
    0 ≤ density masses positions n h i := by
  simp only [density]
  exact Finset.sum_nonneg fun j _ =>
    mul_nonneg (hm j).le (poly6_value_nonneg _ h hh)

/-- C7 witness: one unit-mass particle at the origin, h = 1. -/
theorem C7_witness :
    (∀ j : ℕ, (0 : ℝ) < (fun _ => (1 : ℝ)) j) ∧ (0 : ℝ) < 1 ∧
    0 ≤ density (fun _ => 1) (fun _ => 0) 1 1 0 :=
  ⟨fun _ => by norm_num, by norm_num,
   C7_density_nonneg (fun _ => 1) (fun _ => 0) 1 1 0 (fun _ => by norm_num) (by norm_num)⟩

/-- C8: the step is deterministic — two runs of N ticks from equal initial
states with the same dt, h and particle count produce identical position and
velocity functions and identical snapshot sequences. -/
theorem C8_deterministic (dt h : ℝ) (n N : ℕ) (s₁ s₂ : Simulation) (hs : s₁ = s₂) :
    (runTicks dt h n N s₁).1.positions = (runTicks dt h n N s₂).1.positions ∧
    (runTicks dt h n N s₁).1.velocities = (runTicks dt h n N s₂).1.velocities ∧
    (runTicks dt h n N s₁).2 = (runTicks dt h n N s₂).2 := by
  subst hs
  exact ⟨rfl, rfl, rfl⟩

/-- C8 witness: the two-particle scenario run for one tick against itself. -/
theorem C8_witness :
    cfgStatic = cfgStatic ∧
    ((runTicks delta_time 1 2 1 cfgStatic).1.positions =
        (runTicks delta_time 1 2 1 cfgStatic).1.positions ∧
     (runTicks delta_time 1 2 1 cfgStatic).1.velocities =
        (runTicks delta_time 1 2 1 cfgStatic).1.velocities ∧
     (runTicks delta_time 1 2 1 cfgStatic).2 = (runTicks delta_time 1 2 1 cfgStatic).2) :=
  ⟨rfl, C8_deterministic delta_time 1 2 1 cfgStatic cfgStatic rfl⟩

/-- C9: once the receiving end is gone, the send of the snapshot reports a
terminal failure and the loop produces no further snapshot at all (the
unwrap-panic stops the simulation thread; nothing is partially delivered). -/
theorem C9_send_failure_stops_loop (dt h : ℝ) (n : ℕ) (alive : ℕ → Bool) (fuel t : ℕ)
    (s : Simulation) (x : List Vertex) (ha : alive t = false) :
    sendSnapshot (alive t) x = Except.error () ∧
    simLoop dt h n alive (fuel + 1) t s = [] := by
  constructor
  · rw [ha]
    rfl
  · simp only [simLoop, ha, sendSnapshot, Bool.false_eq_true, if_false]

/-- C9 witness: a receiver that is gone from the start. -/
theorem C9_witness :
    (fun _ : ℕ => false) 0 = false ∧
    (sendSnapshot ((fun _ : ℕ => false) 0) [] = Except.error () ∧
     simLoop delta_time 1 2 (fun _ => false) (0 + 1) 0 cfgStatic = []) :=
  ⟨rfl, C9_send_failure_stops_loop delta_time 1 2 (fun _ => false) 0 0 cfgStatic [] rfl⟩

/-- C10: unlike Poly6, Spiky has no zero-at-origin discontinuity: at r = 0 its
value is 15/(π h⁶) · h³ = 15/(π h³), strictly positive, so a Spiky-based
density self term would be nonzero. -/
theorem C10_spiky_positive_at_origin (h : ℝ) (hh : 0 < h) :
    SpikyKernel.value 0 h = 15 / (Real.pi * h ^ 6) * h ^ 3 ∧
    15 / (Real.pi * h ^ 6) * h ^ 3 = 15 / (Real.pi * h ^ 3) ∧
    0 < SpikyKernel.value 0 h := by
  have h1 := spiky_value_zero_vec h hh
  have h2 : 15 / (Real.pi * h ^ 6) * h ^ 3 = 15 / (Real.pi * h ^ 3) := by
    rw [div_mul_eq_mul_div, div_eq_div_iff (by positivity) (by positivity)]
    ring
  refine ⟨h1, h2, ?_⟩
  rw [h1, h2]
  positivity

/-- C10 witness: h = 1. -/
theorem C10_witness :
    (0 : ℝ) < 1 ∧
    (SpikyKernel.value 0 1 = 15 / (Real.pi * 1 ^ 6) * 1 ^ 3 ∧
     15 / (Real.pi * 1 ^ 6) * 1 ^ 3 = 15 / (Real.pi * 1 ^ 3) ∧
     0 < SpikyKernel.value 0 1) :=
  ⟨by norm_num, C10_spiky_positive_at_origin 1 (by norm_num)⟩

end
